import Mathlib

/-!
Verification of the calendrical core of `ha-meeus-astronomy`
(`custom_components/meeus_astronomy/algorithms.py` and the snapshot
`.history/custom_components/meeus_astronomy/algorithms_20251220114841.py`),
embedded over exact rationals.

Python numeric semantics used by the source are modelled explicitly:
`int(x)` on a float truncates toward zero, float `x % m` returns
`x - m*⌊x/m⌋` (result carries the divisor's sign), float `x // m` is floor
division, and `%` on Python ints is Euclidean remainder (Lean's `Int.emod`).
Floating point is modelled by exact rational arithmetic.
-/

/-- Python `int(q)` on a real value: truncation toward zero. -/
def pyInt (q : ℚ) : ℤ := if q < 0 then ⌈q⌉ else ⌊q⌋

/-- Python float `%`: `x % m = x - m*⌊x/m⌋`; the result carries the divisor's sign. -/
def pyMod (x m : ℚ) : ℚ := x - m * ⌊x / m⌋

/-- Python `round(x, 4)`: round to 4 decimal places.  (CPython breaks exact
decimal ties to even; exact ties never occur in the statements below, where
the two conventions agree.) -/
def pyRound4 (q : ℚ) : ℚ := ((round (q * 10000) : ℤ) : ℚ) / 10000

theorem pyInt_eq_floor {q : ℚ} (h : 0 ≤ q) : pyInt q = ⌊q⌋ := by
  rw [pyInt, if_neg (not_lt.mpr h)]

theorem pyInt_eq_ceil {q : ℚ} (h : q ≤ 0) : pyInt q = ⌈q⌉ := by
  rcases lt_or_eq_of_le h with h' | h'
  · rw [pyInt, if_pos h']
  · rw [pyInt, if_neg (by rw [h']; exact lt_irrefl 0), h']
    simp

theorem pyInt_eq_of_nonneg {q : ℚ} {n : ℤ} (hn : 0 ≤ n) (h1 : (n : ℚ) ≤ q)
    (h2 : q < n + 1) : pyInt q = n := by
  have h0 : (0 : ℚ) ≤ q := le_trans (by exact_mod_cast hn) h1
  rw [pyInt_eq_floor h0]
  exact Int.floor_eq_iff.mpr ⟨h1, h2⟩

theorem pyInt_eq_of_nonpos {q : ℚ} {n : ℤ} (hn : n ≤ 0) (h1 : (n : ℚ) - 1 < q)
    (h2 : q ≤ n) : pyInt q = n := by
  have h0 : q ≤ 0 := le_trans h2 (by exact_mod_cast hn)
  rw [pyInt_eq_ceil h0]
  exact Int.ceil_eq_iff.mpr ⟨h1, h2⟩

theorem pyInt_le_succ (q : ℚ) : (pyInt q : ℚ) ≤ q + 1 := by
  rw [pyInt]
  split
  · exact le_of_lt (Int.ceil_lt_add_one q)
  · exact le_trans (Int.floor_le q) (by linarith)

theorem pyInt_gt_pred (q : ℚ) : q - 1 < (pyInt q : ℚ) := by
  rw [pyInt]
  split
  · have := Int.le_ceil q
    linarith
  · have := Int.lt_floor_add_one q
    linarith

theorem pyInt_le_self {q : ℚ} (h : 0 ≤ q) : (pyInt q : ℚ) ≤ q := by
  rw [pyInt_eq_floor h]
  exact Int.floor_le q

theorem pyMod_nonneg (x : ℚ) {m : ℚ} (hm : 0 < m) : 0 ≤ pyMod x m := by
  rw [pyMod, sub_nonneg]
  have h1 : (⌊x / m⌋ : ℚ) ≤ x / m := Int.floor_le _
  calc m * (⌊x / m⌋ : ℚ) ≤ m * (x / m) := mul_le_mul_of_nonneg_left h1 (le_of_lt hm)
    _ = x := by field_simp

theorem pyMod_lt (x : ℚ) {m : ℚ} (hm : 0 < m) : pyMod x m < m := by
  rw [pyMod, sub_lt_iff_lt_add]
  have h1 : x / m < (⌊x / m⌋ : ℚ) + 1 := Int.lt_floor_add_one _
  calc x = m * (x / m) := by field_simp
    _ < m * ((⌊x / m⌋ : ℚ) + 1) := mul_lt_mul_of_pos_left h1 hm
    _ = m + m * (⌊x / m⌋ : ℚ) := by ring

theorem pyRound4_close (s : ℚ) : |pyRound4 s - s| ≤ 1 / 10000 := by
  have h : |s * 10000 - round (s * 10000)| ≤ 1 / 2 := abs_sub_round (s * 10000)
  have he : pyRound4 s - s = -((s * 10000 - (round (s * 10000) : ℚ)) / 10000) := by
    rw [pyRound4]; ring
  rw [he, abs_neg, abs_div, abs_of_pos (by norm_num : (0:ℚ) < 10000)]
  rw [div_le_iff₀ (by norm_num : (0:ℚ) < 10000)]
  calc |s * 10000 - (round (s * 10000) : ℚ)| ≤ 1 / 2 := h
    _ ≤ 1 / 10000 * 10000 := by norm_num

/-! ## The embedded source functions

`algorithms_20251220114841.py` (the canonical snapshot of the conversion
library) and `algorithms.py` (the Home Assistant module). -/

/-- `is_leap_year(year)` — Gregorian leap-year rule (snapshot, lines 9–16). -/
def is_leap_year (year : ℤ) : Bool :=
  (year % 4 == 0 && year % 100 != 0) || (year % 400 == 0)

/-- Body of `gregorian_to_jd` after the January/February adjustment
(snapshot lines 44–54): the caller has already replaced `(year, month)` by
`(year-1, month+12)` when `month ≤ 2`.  `int(...)` is Python truncation. -/
def jdRaw (year month : ℤ) (day : ℚ) (hour minute : ℤ) (second : ℚ) : ℚ :=
  let A := pyInt ((year : ℚ) / 100)
  let B := 2 - A + pyInt ((A : ℚ) / 4)
  let day_fraction := day + ((hour : ℚ) + (minute : ℚ) / 60 + second / 3600) / 24
  ((pyInt ((365.25 : ℚ) * ((year : ℚ) + 4716)) : ℚ)
      + (pyInt ((30.6001 : ℚ) * ((month : ℚ) + 1)) : ℚ)
      + day_fraction + (B : ℚ)) - 1524.5

/-- `gregorian_to_jd(year, month, day, hour, minute, second)` (snapshot
lines 18–54).  The `day` slot is a number in Python and may carry a
fractional part, so it is embedded as `ℚ`. -/
def gregorian_to_jd (year month : ℤ) (day : ℚ) (hour minute : ℤ) (second : ℚ) : ℚ :=
  if month ≤ 2 then jdRaw (year - 1) (month + 12) day hour minute second
  else jdRaw year month day hour minute second

/-- `jd_to_gregorian`, local `Z` (snapshot line 82): `int(jd + 0.5)`. -/
def jdZ (jd : ℚ) : ℤ := pyInt (jd + 0.5)

/-- `jd_to_gregorian`, local `F` (snapshot line 83): fractional part of `jd + 0.5`. -/
def jdF (jd : ℚ) : ℚ := (jd + 0.5) - (jdZ jd : ℚ)

/-- `jd_to_gregorian`, local `A` (snapshot lines 85–89): Gregorian
correction applied only when `Z ≥ 2299161`. -/
def jdA (jd : ℚ) : ℤ :=
  if jdZ jd < 2299161 then jdZ jd
  else
    let alpha := pyInt (((jdZ jd : ℚ) - 1867216.25) / 36524.25)
    jdZ jd + 1 + alpha - pyInt ((alpha : ℚ) / 4)

/-- `jd_to_gregorian`, local `B` (snapshot line 91). -/
def jdB (jd : ℚ) : ℤ := jdA jd + 1524

/-- `jd_to_gregorian`, local `C` (snapshot line 92). -/
def jdC (jd : ℚ) : ℤ := pyInt (((jdB jd : ℚ) - 122.1) / 365.25)

/-- `jd_to_gregorian`, local `D` (snapshot line 93). -/
def jdD (jd : ℚ) : ℤ := pyInt ((365.25 : ℚ) * (jdC jd : ℚ))

/-- `jd_to_gregorian`, local `E` (snapshot line 94). -/
def jdE (jd : ℚ) : ℤ := pyInt (((jdB jd : ℚ) - (jdD jd : ℚ)) / 30.6001)

/-- `jd_to_gregorian`, local `day_with_fraction` (snapshot line 97). -/
def jdDayFrac (jd : ℚ) : ℚ :=
  (jdB jd : ℚ) - (jdD jd : ℚ) - (pyInt ((30.6001 : ℚ) * (jdE jd : ℚ)) : ℚ) + jdF jd

/-- `jd_to_gregorian`, local `day` (snapshot line 98). -/
def jdDay (jd : ℚ) : ℤ := pyInt (jdDayFrac jd)

/-- `jd_to_gregorian`, month recovery (snapshot lines 100–103). -/
def jdMonth (jd : ℚ) : ℤ := if jdE jd < 14 then jdE jd - 1 else jdE jd - 13

/-- `jd_to_gregorian`, year recovery (snapshot lines 105–108). -/
def jdYear (jd : ℚ) : ℤ := if jdMonth jd > 2 then jdC jd - 4716 else jdC jd - 4715

/-- `jd_to_gregorian`, local `total_seconds` before reduction (snapshot
lines 111–112): `(day_with_fraction - day) * 86400`. -/
def jdTs0 (jd : ℚ) : ℚ := (jdDayFrac jd - (jdDay jd : ℚ)) * 86400

/-- `jd_to_gregorian`, `hour = int(total_seconds // 3600)` (snapshot line
114); Python float `//` is floor division. -/
def jdHour (jd : ℚ) : ℤ := ⌊jdTs0 jd / 3600⌋

/-- `jd_to_gregorian`, `total_seconds %= 3600` (snapshot line 115). -/
def jdTs1 (jd : ℚ) : ℚ := pyMod (jdTs0 jd) 3600

/-- `jd_to_gregorian`, `minute = int(total_seconds // 60)` (snapshot line 116). -/
def jdMinute (jd : ℚ) : ℤ := ⌊jdTs1 jd / 60⌋

/-- `jd_to_gregorian`, `second = round(total_seconds % 60, 4)` (snapshot line 117). -/
def jdSecond (jd : ℚ) : ℚ := pyRound4 (pyMod (jdTs1 jd) 60)

/-- The tuple `(year, month, day, hour, minute, second)` returned by
`jd_to_gregorian` (snapshot line 119). -/
structure CalDate where
  year : ℤ
  month : ℤ
  day : ℤ
  hour : ℤ
  minute : ℤ
  second : ℚ
deriving DecidableEq

/-- `jd_to_gregorian(jd)` (snapshot lines 56–119). -/
def jd_to_gregorian (jd : ℚ) : CalDate :=
  ⟨jdYear jd, jdMonth jd, jdDay jd, jdHour jd, jdMinute jd, jdSecond jd⟩

/-- `jd_to_mjd(jd)` (snapshot lines 121–125). -/
def jd_to_mjd (jd : ℚ) : ℚ := jd - 2400000.5

/-- `mjd_to_jd(mjd)` (snapshot lines 127–131). -/
def mjd_to_jd (mjd : ℚ) : ℚ := mjd + 2400000.5

/-- The `days` list of `day_of_week` (snapshot line 139). -/
def day_of_week_days : List String :=
  ["Sunday", "Monday", "Tuesday", "Wednesday", "Thursday", "Friday", "Saturday"]

/-- The index `wd = int(jd + 1.5) % 7` computed by `day_of_week` (snapshot
line 138); `%` on Python ints is Euclidean remainder. -/
def day_of_week_index (jd : ℚ) : ℤ := pyInt (jd + 1.5) % 7

/-- `day_of_week(jd)` (snapshot lines 133–141).  Python raises `IndexError`
on an out-of-range index; the default totalizes the lookup and is shown
unreachable in claim C9. -/
def day_of_week (jd : ℚ) : String :=
  day_of_week_days.getD (day_of_week_index jd).toNat "IndexError"

/-- `day_of_year(year, month, day)` (snapshot lines 143–154). -/
def day_of_year (year month day : ℤ) : ℤ :=
  let K : ℤ := if is_leap_year year then 1 else 2
  pyInt (((275 * month : ℤ) : ℚ) / 9) - K * pyInt (((month : ℚ) + 9) / 12) + day - 30

/-- The fields of a Python `datetime` read (or ignored) by
`get_julian_day` in `algorithms.py`. -/
structure PyDatetime where
  year : ℤ
  month : ℤ
  day : ℤ
  hour : ℤ
  minute : ℤ
  second : ℤ
  microsecond : ℤ

/-- `get_julian_day(date_utc)` (`algorithms.py` lines 8–32); uses
`math.floor`, i.e. true floors, and never reads `microsecond`. -/
def get_julian_day (dt : PyDatetime) : ℚ :=
  let day_fraction : ℚ := ((dt.hour : ℚ) + (dt.minute : ℚ) / 60 + (dt.second : ℚ) / 3600) / 24
  let Y := if dt.month ≤ 2 then dt.year - 1 else dt.year
  let M := if dt.month ≤ 2 then dt.month + 12 else dt.month
  let A := ⌊(Y : ℚ) / 100⌋
  let B := 2 - A + ⌊(A : ℚ) / 4⌋
  let JD : ℚ := ((⌊(365.25 : ℚ) * ((Y : ℚ) + 4716)⌋ : ℚ)
      + (⌊(30.6001 : ℚ) * ((M : ℚ) + 1)⌋ : ℚ) + (dt.day : ℚ) + (B : ℚ)) - 1524.5
  JD + day_fraction

/-- `get_julian_centuries(jd)` (`algorithms.py` lines 34–36). -/
def get_julian_centuries (jd : ℚ) : ℚ := (jd - 2451545.0) / 36525.0

/-- `get_mean_sidereal_time_greenwich(jd)` (`algorithms.py` lines 38–50). -/
def get_mean_sidereal_time_greenwich (jd : ℚ) : ℚ :=
  let T := get_julian_centuries jd
  pyMod (280.46061837 + 360.98564736629 * (jd - 2451545.0)
      + 0.000387933 * T ^ 2 - T ^ 3 / 38710000.0) 360.0

/-- `get_local_sidereal_time(gmst_deg, longitude)` (`algorithms.py` lines 52–61). -/
def get_local_sidereal_time (gmst_deg longitude : ℚ) : ℚ :=
  pyMod (gmst_deg + longitude) 360.0

/-- Number of days of `month` in `year` (proleptic Gregorian): the claims'
"day valid for the month" side condition, stated with the source's
`is_leap_year`. -/
def daysInMonth (year month : ℤ) : ℤ :=
  if month = 2 then (if is_leap_year year then 29 else 28)
  else if month = 4 ∨ month = 6 ∨ month = 9 ∨ month = 11 then 30 else 31

/-- `daysInMonth` after Meeus's January/February shift: the bound on `day`
expressed against the shifted month `month' ∈ 3..14` (months 13, 14 are
January and February of `year' + 1`). -/
def monthLenAdj (year month : ℤ) : ℤ :=
  if month = 14 then (if is_leap_year (year + 1) then 29 else 28)
  else if month = 4 ∨ month = 6 ∨ month = 9 ∨ month = 11 then 30 else 31

/-! ## Bridges from `pyInt` to integer division

On nonnegative arguments Python truncation agrees with the floor, and the
floor of an integer-by-natural quotient is Euclidean integer division. -/

theorem pyInt_intCast_div_natCast (n : ℤ) (d : ℕ) (hn : 0 ≤ n) :
    pyInt ((n : ℚ) / ((d : ℕ) : ℚ)) = n / (d : ℤ) := by
  have h0 : (0 : ℚ) ≤ (n : ℚ) / ((d : ℕ) : ℚ) :=
    div_nonneg (by exact_mod_cast hn) (by positivity)
  rw [pyInt_eq_floor h0, Rat.floor_intCast_div_natCast]

theorem pyInt_mul_365_25 (n : ℤ) (hn : 0 ≤ n) :
    pyInt ((365.25 : ℚ) * (n : ℚ)) = 1461 * n / 4 := by
  rw [show (365.25 : ℚ) * (n : ℚ) = ((1461 * n : ℤ) : ℚ) / ((4 : ℕ) : ℚ) by push_cast; ring]
  exact pyInt_intCast_div_natCast _ 4 (by omega)

theorem pyInt_mul_30_6001 (n : ℤ) (hn : 0 ≤ n) :
    pyInt ((30.6001 : ℚ) * (n : ℚ)) = 306001 * n / 10000 := by
  rw [show (30.6001 : ℚ) * (n : ℚ) = ((306001 * n : ℤ) : ℚ) / ((10000 : ℕ) : ℚ) by
    push_cast; ring]
  exact pyInt_intCast_div_natCast _ 10000 (by omega)

/-- `jdRaw` in closed integer-division form, valid for nonnegative
(shifted) year and month. -/
theorem jdRaw_formula (y m : ℤ) (d : ℚ) (h mi : ℤ) (s : ℚ) (hy : 0 ≤ y) (hm : 0 ≤ m) :
    jdRaw y m d h mi s =
      ((1461 * (y + 4716) / 4 : ℤ) : ℚ) + ((306001 * (m + 1) / 10000 : ℤ) : ℚ)
        + (d + ((h : ℚ) + (mi : ℚ) / 60 + s / 3600) / 24)
        + ((2 - y / 100 + y / 100 / 4 : ℤ) : ℚ) - 1524.5 := by
  have hA : pyInt ((y : ℚ) / 100) = y / 100 := by
    rw [show (100 : ℚ) = ((100 : ℕ) : ℚ) by norm_num]
    exact pyInt_intCast_div_natCast y 100 hy
  have hA4 : pyInt (((y / 100 : ℤ) : ℚ) / 4) = y / 100 / 4 := by
    rw [show (4 : ℚ) = ((4 : ℕ) : ℚ) by norm_num]
    exact pyInt_intCast_div_natCast _ 4 (Int.ediv_nonneg hy (by norm_num))
  have hT1 : pyInt ((365.25 : ℚ) * ((y : ℚ) + 4716)) = 1461 * (y + 4716) / 4 := by
    rw [show ((y : ℚ) + 4716) = ((y + 4716 : ℤ) : ℚ) by push_cast; ring]
    exact pyInt_mul_365_25 _ (by omega)
  have hT2 : pyInt ((30.6001 : ℚ) * ((m : ℚ) + 1)) = 306001 * (m + 1) / 10000 := by
    rw [show ((m : ℚ) + 1) = ((m + 1 : ℤ) : ℚ) by push_cast; ring]
    exact pyInt_mul_30_6001 _ (by omega)
  simp only [jdRaw, hA, hA4, hT1, hT2]

/-- `jdC` in integer-division form (needs `B ≥ 123` so the dividend is
nonnegative). -/
theorem jdC_formula (jd : ℚ) (hB : 123 ≤ jdB jd) :
    jdC jd = (20 * jdB jd - 2442) / 7305 := by
  rw [jdC, show ((jdB jd : ℚ) - 122.1) / 365.25
      = ((20 * jdB jd - 2442 : ℤ) : ℚ) / ((7305 : ℕ) : ℚ) by push_cast; ring]
  exact pyInt_intCast_div_natCast _ 7305 (by omega)

/-- `jdD` in integer-division form (needs `C ≥ 0`). -/
theorem jdD_formula (jd : ℚ) (hC : 0 ≤ jdC jd) :
    jdD jd = 1461 * jdC jd / 4 := by
  rw [jdD]
  exact pyInt_mul_365_25 _ hC

/-- `jdE` in integer-division form (needs `D ≤ B`). -/
theorem jdE_formula (jd : ℚ) (hBD : jdD jd ≤ jdB jd) :
    jdE jd = 10000 * (jdB jd - jdD jd) / 306001 := by
  rw [jdE, show ((jdB jd : ℚ) - (jdD jd : ℚ)) / 30.6001
      = ((10000 * (jdB jd - jdD jd) : ℤ) : ℚ) / ((306001 : ℕ) : ℚ) by push_cast; ring]
  exact pyInt_intCast_div_natCast _ 306001 (by omega)

/-- `jdA` on the Gregorian branch, with `alpha` in integer-division form. -/
theorem jdA_formula (jd : ℚ) (h : 2299161 ≤ jdZ jd) :
    jdA jd = jdZ jd + 1 + (4 * jdZ jd - 7468865) / 146097
      - (4 * jdZ jd - 7468865) / 146097 / 4 := by
  rw [jdA, if_neg (by omega)]
  have halpha : pyInt (((jdZ jd : ℚ) - 1867216.25) / 36524.25)
      = (4 * jdZ jd - 7468865) / 146097 := by
    rw [show ((jdZ jd : ℚ) - 1867216.25) / 36524.25
        = ((4 * jdZ jd - 7468865 : ℤ) : ℚ) / ((146097 : ℕ) : ℚ) by push_cast; ring]
    exact pyInt_intCast_div_natCast _ 146097 (by omega)
  show jdZ jd + 1 + pyInt (((jdZ jd : ℚ) - 1867216.25) / 36524.25)
      - pyInt ((pyInt (((jdZ jd : ℚ) - 1867216.25) / 36524.25) : ℚ) / 4) = _
  rw [halpha, show (4 : ℚ) = ((4 : ℕ) : ℚ) by norm_num,
    pyInt_intCast_div_natCast _ 4 (Int.ediv_nonneg (by omega) (by norm_num))]
  norm_num

/-! ## Claim C6: the MJD offset is an exact linear bijection -/

/-- Claim C6: for every `jd`, `jd_to_mjd jd + 2400000.5 = jd` exactly, and
`mjd_to_jd (jd_to_mjd jd) = jd` exactly. -/
theorem mjd_exact_linear_offset :
    ∀ jd : ℚ, jd_to_mjd jd + 2400000.5 = jd ∧ mjd_to_jd (jd_to_mjd jd) = jd := by
  intro jd
  constructor <;> (rw [jd_to_mjd]; try rw [mjd_to_jd]) <;> ring

/-! ## Claim C3: sidereal times are normalized into [0, 360) -/

/-- Claim C3: `get_mean_sidereal_time_greenwich jd ∈ [0, 360)` for every
`jd`, and `get_local_sidereal_time gmst lon ∈ [0, 360)` for every `gmst`
and every (possibly negative) `lon`. -/
theorem sidereal_times_normalized :
    (∀ jd : ℚ, 0 ≤ get_mean_sidereal_time_greenwich jd ∧
      get_mean_sidereal_time_greenwich jd < 360) ∧
    (∀ gmst lon : ℚ, 0 ≤ get_local_sidereal_time gmst lon ∧
      get_local_sidereal_time gmst lon < 360) := by
  have h360 : (0 : ℚ) < 360.0 := by norm_num
  refine ⟨fun jd => ?_, fun gmst lon => ?_⟩
  · rw [get_mean_sidereal_time_greenwich]
    exact ⟨pyMod_nonneg _ h360, lt_of_lt_of_le (pyMod_lt _ h360) (by norm_num)⟩
  · rw [get_local_sidereal_time]
    exact ⟨pyMod_nonneg _ h360, lt_of_lt_of_le (pyMod_lt _ h360) (by norm_num)⟩

/-! ## Claim C5: fractional-day call form agrees with the split form -/

/-- Claim C5: for any year, month in 1..12, and integer day, hour, minute
and second, passing the time of day as a fractional day gives exactly the
same Julian Day as passing hour/minute/second separately. -/
theorem fractional_day_form_agrees (y m d h mi sec : ℤ)
    (hm1 : 1 ≤ m) (hm2 : m ≤ 12) :
    gregorian_to_jd y m ((d : ℚ) + ((h : ℚ) + (mi : ℚ) / 60 + (sec : ℚ) / 3600) / 24) 0 0 0
      = gregorian_to_jd y m (d : ℚ) h mi (sec : ℚ) := by
  rw [gregorian_to_jd, gregorian_to_jd]
  split <;> (rw [jdRaw, jdRaw]; push_cast; ring)

/-- Witness for C5 at 2024-02-29 23:59:59. -/
theorem fractional_day_form_agrees_witness :
    (1 ≤ (2:ℤ) ∧ (2:ℤ) ≤ 12) ∧
    gregorian_to_jd 2024 2 ((29 : ℚ) + ((23 : ℚ) + (59 : ℚ) / 60 + (59 : ℚ) / 3600) / 24) 0 0 0
      = gregorian_to_jd 2024 2 (29 : ℚ) 23 59 (59 : ℚ) :=
  ⟨⟨by norm_num, by norm_num⟩, by
    have h := fractional_day_form_agrees 2024 2 29 23 59 59 (by norm_num) (by norm_num)
    push_cast at h ⊢
    exact h⟩

/-! ## Claim C9: the weekday index is always in bounds -/

/-- Claim C9: for every `jd` (negative included) the index
`int(jd + 1.5) % 7` lies in `{0, …, 6}`, so the lookup into the
seven-element list is in bounds and `day_of_week` always returns one of the
seven names. -/
theorem day_of_week_index_in_bounds :
    ∀ jd : ℚ, 0 ≤ day_of_week_index jd ∧ day_of_week_index jd < 7 ∧
      day_of_week jd ∈ day_of_week_days := by
  intro jd
  have h0 : 0 ≤ day_of_week_index jd :=
    Int.emod_nonneg _ (by norm_num)
  have h7 : day_of_week_index jd < 7 :=
    Int.emod_lt_of_pos _ (by norm_num)
  refine ⟨h0, h7, ?_⟩
  have : day_of_week_index jd = 0 ∨ day_of_week_index jd = 1 ∨
      day_of_week_index jd = 2 ∨ day_of_week_index jd = 3 ∨
      day_of_week_index jd = 4 ∨ day_of_week_index jd = 5 ∨
      day_of_week_index jd = 6 := by omega
  rcases this with h | h | h | h | h | h | h <;>
    simp [day_of_week, h, day_of_week_days]

/-! ## Claim C10: `get_julian_day` ignores microseconds -/

/-- Claim C10: `get_julian_day` reads only year, month, day, hour, minute
and whole seconds; two datetimes differing only in `microsecond` yield the
same Julian Day. -/
theorem get_julian_day_ignores_microseconds (d1 d2 : PyDatetime)
    (hy : d1.year = d2.year) (hmo : d1.month = d2.month) (hd : d1.day = d2.day)
    (hh : d1.hour = d2.hour) (hmi : d1.minute = d2.minute) (hs : d1.second = d2.second) :
    get_julian_day d1 = get_julian_day d2 := by
  rw [get_julian_day, get_julian_day, hy, hmo, hd, hh, hmi, hs]

/-- Witness for C10: two datetimes that differ only in the microsecond
field (0 vs 999999) have equal Julian Day. -/
theorem get_julian_day_ignores_microseconds_witness :
    (PyDatetime.mk 2024 5 15 12 30 30 0).year = (PyDatetime.mk 2024 5 15 12 30 30 999999).year ∧
    get_julian_day (PyDatetime.mk 2024 5 15 12 30 30 0)
      = get_julian_day (PyDatetime.mk 2024 5 15 12 30 30 999999) :=
  ⟨rfl, get_julian_day_ignores_microseconds _ _ rfl rfl rfl rfl rfl rfl⟩

/-! ## Claim C2: the Meeus 333 example under the pure-Gregorian variant -/

/-- Evaluation of `gregorian_to_jd(333, 1, 27, 12, 0, 0)`: the unconditional
Gregorian correction gives `B = -1`, hence JD `1842712.0`. -/
theorem gregorian_to_jd_333_eval : gregorian_to_jd 333 1 27 12 0 0 = 1842712 := by
  have h : gregorian_to_jd 333 1 27 12 0 0 = jdRaw 332 13 27 12 0 0 := by
    rw [gregorian_to_jd, if_pos (by norm_num : (1 : ℤ) ≤ 2)]
    norm_num
  rw [h, jdRaw_formula 332 13 27 12 0 0 (by norm_num) (by norm_num)]
  norm_num

/-- Counterexample to claim C2: the value is a full day away from the
claimed `≈ 1842713.0` (Meeus's tabulated value holds for the Julian
calendar branch, which this source never takes). -/
theorem gregorian_to_jd_333_not_meeus :
    ¬ (|gregorian_to_jd 333 1 27 12 0 0 - 1842713| < 1 / 2) := by
  rw [gregorian_to_jd_333_eval]
  norm_num

/-- Claim C2 (amended): `gregorian_to_jd(333, 1, 27, 12, 0, 0)` equals
exactly `1842712.0` — one day less than Meeus's Julian-calendar value
`1842713.0` — because the Gregorian correction `B = 2 - A + int(A/4) = -1`
is applied unconditionally. -/
theorem gregorian_to_jd_333_pure_gregorian_value :
    gregorian_to_jd 333 1 27 12 0 0 = 1842712 :=
  gregorian_to_jd_333_eval

/-! ## Claim C4: range of the seconds field of `jd_to_gregorian` -/

/-- Claim C4 (amended): for every `jd` the seconds field returned by
`jd_to_gregorian` satisfies `0 ≤ second ≤ 60`; the value `60.0` itself is
attained (see the counterexample), because `round(·, 4)` can round a value
just below 60 up to exactly 60. -/
theorem jd_to_gregorian_second_bounds :
    ∀ jd : ℚ, 0 ≤ (jd_to_gregorian jd).second ∧ (jd_to_gregorian jd).second ≤ 60 := by
  intro jd
  show 0 ≤ jdSecond jd ∧ jdSecond jd ≤ 60
  rw [jdSecond, pyRound4]
  have hq0 : 0 ≤ pyMod (jdTs1 jd) 60 := pyMod_nonneg _ (by norm_num)
  have hq60 : pyMod (jdTs1 jd) 60 < 60 := pyMod_lt _ (by norm_num)
  constructor
  · apply div_nonneg _ (by norm_num)
    have h : (0 : ℤ) ≤ round (pyMod (jdTs1 jd) 60 * 10000) := by
      rw [round_eq]
      exact Int.floor_nonneg.mpr (by linarith)
    exact_mod_cast h
  · rw [div_le_iff₀ (by norm_num : (0:ℚ) < 10000)]
    have h : round (pyMod (jdTs1 jd) 60 * 10000) ≤ 600000 := by
      rw [round_eq]
      have h2 : ⌊pyMod (jdTs1 jd) 60 * 10000 + 1 / 2⌋ < 600001 :=
        Int.floor_lt.mpr (by push_cast; linarith)
      omega
    calc ((round (pyMod (jdTs1 jd) 60 * 10000) : ℤ) : ℚ) ≤ 600000 := by exact_mod_cast h
      _ = 60 * 10000 := by norm_num

/-- Counterexample to claim C4: at `jd = 59.99996/86400 - 0.5` the
fractional day is 59.99996 seconds, and rounding to 4 decimal places
returns exactly `60.0`, which is not strictly less than 60. -/
theorem jd_to_gregorian_second_sixty :
    (jd_to_gregorian ((59.99996 : ℚ) / 86400 - 1 / 2)).second = 60 ∧
    ¬ ((jd_to_gregorian ((59.99996 : ℚ) / 86400 - 1 / 2)).second < 60) := by
  have hZ : jdZ ((59.99996 : ℚ) / 86400 - 1 / 2) = 0 := by
    rw [jdZ]
    exact pyInt_eq_of_nonneg (by norm_num) (by norm_num) (by norm_num)
  have hF : jdF ((59.99996 : ℚ) / 86400 - 1 / 2) = (59.99996 : ℚ) / 86400 := by
    rw [jdF, hZ]
    norm_num
  have hA : jdA ((59.99996 : ℚ) / 86400 - 1 / 2) = 0 := by
    rw [jdA, if_pos (by rw [hZ]; norm_num), hZ]
  have hB : jdB ((59.99996 : ℚ) / 86400 - 1 / 2) = 1524 := by
    rw [jdB, hA]
    norm_num
  have hC : jdC ((59.99996 : ℚ) / 86400 - 1 / 2) = 3 := by
    rw [jdC, hB]
    exact pyInt_eq_of_nonneg (by norm_num) (by norm_num) (by norm_num)
  have hD : jdD ((59.99996 : ℚ) / 86400 - 1 / 2) = 1095 := by
    rw [jdD, hC]
    exact pyInt_eq_of_nonneg (by norm_num) (by norm_num) (by norm_num)
  have hE : jdE ((59.99996 : ℚ) / 86400 - 1 / 2) = 14 := by
    rw [jdE, hB, hD]
    exact pyInt_eq_of_nonneg (by norm_num) (by norm_num) (by norm_num)
  have hDF : jdDayFrac ((59.99996 : ℚ) / 86400 - 1 / 2) = 1 + (59.99996 : ℚ) / 86400 := by
    rw [jdDayFrac, hB, hD, hE, hF]
    rw [show pyInt ((30.6001 : ℚ) * ((14 : ℤ) : ℚ)) = 428 from
      pyInt_eq_of_nonneg (by norm_num) (by norm_num) (by norm_num)]
    norm_num
  have hday : jdDay ((59.99996 : ℚ) / 86400 - 1 / 2) = 1 := by
    rw [jdDay, hDF]
    exact pyInt_eq_of_nonneg (by norm_num) (by norm_num) (by norm_num)
  have hts0 : jdTs0 ((59.99996 : ℚ) / 86400 - 1 / 2) = 59.99996 := by
    rw [jdTs0, hDF, hday]
    norm_num
  have hts1 : jdTs1 ((59.99996 : ℚ) / 86400 - 1 / 2) = 59.99996 := by
    rw [jdTs1, hts0, pyMod]
    rw [show ⌊(59.99996 : ℚ) / 3600⌋ = 0 from
      Int.floor_eq_iff.mpr (by constructor <;> norm_num)]
    norm_num
  have hsec : (jd_to_gregorian ((59.99996 : ℚ) / 86400 - 1 / 2)).second = 60 := by
    show jdSecond ((59.99996 : ℚ) / 86400 - 1 / 2) = 60
    rw [jdSecond, hts1, pyMod]
    rw [show ⌊(59.99996 : ℚ) / 60⌋ = 0 from
      Int.floor_eq_iff.mpr (by constructor <;> norm_num)]
    rw [pyRound4]
    have hr : round (((59.99996 : ℚ) - 60 * ((0 : ℤ) : ℚ)) * 10000) = 600000 := by
      rw [round_eq]
      exact Int.floor_eq_iff.mpr (by constructor <;> norm_num)
    rw [hr]
    norm_num
  exact ⟨hsec, by rw [hsec]; norm_num⟩

/-! ## Claim C7: weekly periodicity of `day_of_week` -/

/-- Claim C7 (amended): for every `jd ≥ -1.5` — so that `jd + 1.5 ≥ 0` and
Python's `int()` truncation agrees with the floor — `day_of_week (jd + 7) =
day_of_week jd`.  (For `jd` with `jd + 1.5 ∈ (-1, 0)` the truncation breaks
the 7-day periodicity; see the counterexample.) -/
theorem day_of_week_periodic (jd : ℚ) (h : -1.5 ≤ jd) :
    day_of_week (jd + 7) = day_of_week jd := by
  have h0 : (0 : ℚ) ≤ jd + 1.5 := by
    rw [show (1.5 : ℚ) = 3 / 2 by norm_num]
    rw [show (-1.5 : ℚ) = -(3 / 2) by norm_num] at h
    linarith
  have h7 : (0 : ℚ) ≤ jd + 7 + 1.5 := by linarith
  have key : pyInt (jd + 7 + 1.5) = pyInt (jd + 1.5) + 7 := by
    rw [pyInt_eq_floor h7, pyInt_eq_floor h0,
      show jd + 7 + 1.5 = (jd + 1.5) + ((7 : ℤ) : ℚ) by push_cast; ring]
    exact Int.floor_add_int _ _
  have hidx : day_of_week_index (jd + 7) = day_of_week_index jd := by
    rw [day_of_week_index, day_of_week_index, key]
    omega
  rw [day_of_week, day_of_week, hidx]

/-- Witness for C7 at `jd = 2451545` (J2000.0). -/
theorem day_of_week_periodic_witness :
    (-1.5 : ℚ) ≤ 2451545 ∧ day_of_week ((2451545 : ℚ) + 7) = day_of_week 2451545 :=
  ⟨by norm_num, day_of_week_periodic 2451545 (by norm_num)⟩

/-- Counterexample to claim C7 as stated for all real `jd`: at `jd = -2`,
`int(jd + 1.5) = int(-0.5) = 0` (truncation toward zero, not the floor
`-1`), so `day_of_week (-2) = "Sunday"` while `day_of_week 5 =
"Saturday"`. -/
theorem day_of_week_not_periodic_at_neg_two :
    day_of_week ((-2 : ℚ) + 7) ≠ day_of_week (-2) := by
  have h1 : day_of_week ((-2 : ℚ) + 7) = "Saturday" := by
    have hi : pyInt ((-2 : ℚ) + 7 + 1.5) = 6 :=
      pyInt_eq_of_nonneg (by norm_num) (by norm_num) (by norm_num)
    rw [day_of_week, day_of_week_index, hi]
    rfl
  have h2 : day_of_week (-2 : ℚ) = "Sunday" := by
    have hi : pyInt ((-2 : ℚ) + 1.5) = 0 :=
      pyInt_eq_of_nonpos (by norm_num) (by norm_num) (by norm_num)
    rw [day_of_week, day_of_week_index, hi]
    rfl
  rw [h1, h2]
  decide

/-! ## Claim C8: range of `day_of_year` -/

/-- Claim C8: for a valid calendar date, `day_of_year` lies in `1..365` in
common years and `1..366` in leap years. -/
theorem day_of_year_in_range (y m d : ℤ) (hm1 : 1 ≤ m) (hm2 : m ≤ 12)
    (hd1 : 1 ≤ d) (hd2 : d ≤ daysInMonth y m) :
    1 ≤ day_of_year y m d ∧
      day_of_year y m d ≤ (if is_leap_year y then 366 else 365) := by
  have h275 : pyInt (((275 * m : ℤ) : ℚ) / 9) = 275 * m / 9 := by
    rw [show (9 : ℚ) = ((9 : ℕ) : ℚ) by norm_num]
    exact pyInt_intCast_div_natCast _ 9 (by omega)
  have h12 : pyInt (((m : ℚ) + 9) / 12) = (m + 9) / 12 := by
    rw [show ((m : ℚ) + 9) = ((m + 9 : ℤ) : ℚ) by push_cast; ring,
      show (12 : ℚ) = ((12 : ℕ) : ℚ) by norm_num]
    exact pyInt_intCast_div_natCast _ 12 (by omega)
  rw [daysInMonth] at hd2
  simp only [day_of_year, h275, h12]
  by_cases hl : is_leap_year y = true
  · simp only [hl, if_true] at hd2 ⊢
    split_ifs at hd2 <;> omega
  · rw [Bool.not_eq_true] at hl
    simp only [hl, Bool.false_eq_true, if_false] at hd2 ⊢
    split_ifs at hd2 <;> omega

/-- Witness for C8 at 2024-12-31 (leap year, day 366). -/
theorem day_of_year_in_range_witness :
    ((1 : ℤ) ≤ 12 ∧ (12 : ℤ) ≤ 12 ∧ (1 : ℤ) ≤ 31 ∧ (31 : ℤ) ≤ daysInMonth 2024 12) ∧
    (1 ≤ day_of_year 2024 12 31 ∧
      day_of_year 2024 12 31 ≤ (if is_leap_year 2024 then 366 else 365)) :=
  ⟨⟨by decide, by decide, by decide, by decide⟩,
    day_of_year_in_range 2024 12 31 (by decide) (by decide) (by decide) (by decide)⟩

/-! ## Claim C1: round-trip `jd_to_gregorian ∘ gregorian_to_jd`

The integer arithmetic core: with the Meeus-shifted year `y' ≥ 1582` and
shifted month `m' ∈ 3..14`, the inverse algorithm's `alpha`, `C` and `E`
steps recover the Gregorian correction, the year and the month. -/

theorem meeus_inverse_arith (y' m' d : ℤ)
    (hy : 1582 ≤ y') (hm3 : 3 ≤ m') (hm14 : m' ≤ 14)
    (hd1 : 1 ≤ d) (hd31 : d ≤ 31)
    (hd30 : m' = 4 ∨ m' = 6 ∨ m' = 9 ∨ m' = 11 → d ≤ 30)
    (hd29 : m' = 14 → d ≤ 29)
    (hleap : m' = 14 → d = 29 →
      ((y' + 1) % 4 = 0 ∧ (y' + 1) % 100 ≠ 0) ∨ (y' + 1) % 400 = 0) :
    (4 * (1461 * (y' + 4716) / 4 + 306001 * (m' + 1) / 10000
        + (2 - y' / 100 + y' / 100 / 4) - 1524 + d) - 7468865) / 146097
      = y' / 100 - 4 ∧
    (20 * (1461 * (y' + 4716) / 4 + 306001 * (m' + 1) / 10000 + d) - 2442) / 7305
      = y' + 4716 ∧
    10000 * (306001 * (m' + 1) / 10000 + d) / 306001 = m' + 1 := by
  have hT1x : 4 * (1461 * (y' + 4716) / 4) = 1461 * y' + 6890076 - y' % 4 := by omega
  have hA0x : 100 * (y' / 100) = y' - y' % 100 := by omega
  have hP4x : 4 * (y' / 100 / 4) = y' / 100 - y' / 100 % 4 := by omega
  have hmod : y' % 4 = y' % 100 % 4 := by omega
  have hmc : m' = 3 ∨ m' = 4 ∨ m' = 5 ∨ m' = 6 ∨ m' = 7 ∨ m' = 8 ∨ m' = 9 ∨
      m' = 10 ∨ m' = 11 ∨ m' = 12 ∨ m' = 13 ∨ m' = 14 := by omega
  rcases hmc with h|h|h|h|h|h|h|h|h|h|h|h <;> subst h <;>
    first
    | (refine ⟨by omega, by omega, by omega⟩)
    | (have hd30' : d ≤ 30 := hd30 (by norm_num)
       refine ⟨by omega, by omega, by omega⟩)
    | (have hd29' : d ≤ 29 := hd29 rfl
       rcases eq_or_ne d 29 with h29 | h29
       · subst h29
         have hl4 : (y' + 1) % 4 = 0 := by
           rcases hleap rfl rfl with ⟨h4, _⟩ | h400 <;> omega
         have hl400 : (y' + 1) % 100 = 0 → (y' + 1) % 400 = 0 := by
           intro h100
           rcases hleap rfl rfl with ⟨_, h100'⟩ | h400
           · exact absurd h100 h100'
           · exact h400
         by_cases hc : (y' + 1) % 100 = 0
         · have h400 := hl400 hc
           have hq : y' / 100 = 4 * ((y' + 1) / 400) - 1 := by omega
           have hq3 : y' / 100 % 4 = 3 := by omega
           have hq99 : y' % 100 = 99 := by omega
           refine ⟨by omega, by omega, by omega⟩
         · have hq98 : y' % 100 ≤ 98 := by omega
           have hy4 : y' % 4 = 3 := by omega
           refine ⟨by omega, by omega, by omega⟩
       · refine ⟨by omega, by omega, by omega⟩)

/-- The inverse algorithm applied to `jdRaw y' m' d h mi s` recovers the
(shifted) calendar fields, for any date after the Gregorian branch
threshold `Z ≥ 2299161`. -/
theorem jdRaw_roundtrip (y' m' d h mi : ℤ) (s : ℚ)
    (hm3 : 3 ≤ m') (hm14 : m' ≤ 14)
    (hd1 : 1 ≤ d) (hdm : d ≤ monthLenAdj y' m')
    (hh0 : 0 ≤ h) (hh : h ≤ 23) (hmi0 : 0 ≤ mi) (hmi : mi ≤ 59)
    (hs0 : 0 ≤ s) (hs : s < 60)
    (hcut : 2299161 ≤ jdZ (jdRaw y' m' (d : ℚ) h mi s)) :
    jd_to_gregorian (jdRaw y' m' (d : ℚ) h mi s) =
      ⟨(if 13 ≤ m' then y' + 1 else y'), (if 13 ≤ m' then m' - 12 else m'),
        d, h, mi, pyRound4 s⟩ := by
  -- cast bounds for the time-of-day fields
  have hh0' : (0 : ℚ) ≤ (h : ℚ) := by exact_mod_cast hh0
  have hh' : (h : ℚ) ≤ 23 := by exact_mod_cast hh
  have hmi0' : (0 : ℚ) ≤ (mi : ℚ) := by exact_mod_cast hmi0
  have hmi' : (mi : ℚ) ≤ 59 := by exact_mod_cast hmi
  have htf0 : 0 ≤ ((h : ℚ) + (mi : ℚ) / 60 + s / 3600) / 24 := by
    apply div_nonneg _ (by norm_num)
    have h1 : (0 : ℚ) ≤ (mi : ℚ) / 60 := by positivity
    have h2 : (0 : ℚ) ≤ s / 3600 := by positivity
    linarith
  have htf1 : ((h : ℚ) + (mi : ℚ) / 60 + s / 3600) / 24 < 1 := by
    rw [div_lt_one (by norm_num : (0 : ℚ) < 24)]
    have h1 : (mi : ℚ) / 60 ≤ 59 / 60 := by linarith
    have h2 : s / 3600 < 60 / 3600 := by linarith
    linarith
  -- name the four forward `int(...)` quantities
  obtain ⟨A0, hA0⟩ : ∃ n, pyInt ((y' : ℚ) / 100) = n := ⟨_, rfl⟩
  obtain ⟨P4, hP4⟩ : ∃ n, pyInt ((A0 : ℚ) / 4) = n := ⟨_, rfl⟩
  obtain ⟨T1, hT1⟩ : ∃ n, pyInt ((365.25 : ℚ) * ((y' : ℚ) + 4716)) = n := ⟨_, rfl⟩
  obtain ⟨T2, hT2⟩ : ∃ n, pyInt ((30.6001 : ℚ) * ((m' : ℚ) + 1)) = n := ⟨_, rfl⟩
  have hjdv : jdRaw y' m' (d : ℚ) h mi s
      = ((T1 + T2 + (2 - A0 + P4) - 1524 + d : ℤ) : ℚ)
        + ((h : ℚ) + (mi : ℚ) / 60 + s / 3600) / 24 - 0.5 := by
    simp only [jdRaw, hA0, hP4, hT1, hT2]
    push_cast
    ring
  have harg : jdRaw y' m' (d : ℚ) h mi s + 0.5
      = ((T1 + T2 + (2 - A0 + P4) - 1524 + d : ℤ) : ℚ)
        + ((h : ℚ) + (mi : ℚ) / 60 + s / 3600) / 24 := by
    rw [hjdv]; ring
  -- Z is the integer part
  have hposarg : (0 : ℚ) ≤ jdRaw y' m' (d : ℚ) h mi s + 0.5 := by
    have h1 := pyInt_le_succ (jdRaw y' m' (d : ℚ) h mi s + 0.5)
    have h2 : (2299161 : ℚ) ≤ (jdZ (jdRaw y' m' (d : ℚ) h mi s) : ℚ) := by
      exact_mod_cast hcut
    rw [jdZ] at h2
    linarith
  have hZN : jdZ (jdRaw y' m' (d : ℚ) h mi s) = T1 + T2 + (2 - A0 + P4) - 1524 + d := by
    rw [jdZ, pyInt_eq_floor hposarg, harg, Int.floor_int_add,
      Int.floor_eq_zero_iff.mpr (Set.mem_Ico.mpr ⟨htf0, htf1⟩)]
    ring
  have hcutN : 2299161 ≤ T1 + T2 + (2 - A0 + P4) - 1524 + d := hZN ▸ hcut
  -- day-of-month bounds from the validity hypothesis
  have hd31 : d ≤ 31 := by
    rw [monthLenAdj] at hdm
    split_ifs at hdm <;> omega
  have hd30 : m' = 4 ∨ m' = 6 ∨ m' = 9 ∨ m' = 11 → d ≤ 30 := by
    intro hor
    rw [monthLenAdj] at hdm
    split_ifs at hdm <;> omega
  have hd29 : m' = 14 → d ≤ 29 := by
    intro h14
    rw [monthLenAdj, if_pos h14] at hdm
    split_ifs at hdm <;> omega
  have hleap : m' = 14 → d = 29 →
      ((y' + 1) % 4 = 0 ∧ (y' + 1) % 100 ≠ 0) ∨ (y' + 1) % 400 = 0 := by
    intro h14 h29
    rw [monthLenAdj, if_pos h14] at hdm
    by_cases hb : is_leap_year (y' + 1) = true
    · rw [is_leap_year] at hb
      simp only [Bool.or_eq_true, Bool.and_eq_true, beq_iff_eq, bne_iff_ne] at hb
      exact hb
    · rw [if_neg hb] at hdm
      omega
  -- derive y' ≥ 1582 from the cutover hypothesis
  have hy1582 : 1582 ≤ y' := by
    by_contra hcon
    push_neg at hcon
    have hylt : (y' : ℚ) ≤ 1581 := by exact_mod_cast (by omega : y' ≤ 1581)
    have hm14' : (m' : ℚ) ≤ 14 := by exact_mod_cast hm14
    have hd31' : (d : ℚ) ≤ 31 := by exact_mod_cast hd31
    have hT1ub : (T1 : ℚ) ≤ 365.25 * ((y' : ℚ) + 4716) + 1 := hT1 ▸ pyInt_le_succ _
    have hA0lb : (y' : ℚ) / 100 - 1 < (A0 : ℚ) := hA0 ▸ pyInt_gt_pred _
    have hP4ub : (P4 : ℚ) ≤ (A0 : ℚ) / 4 + 1 := hP4 ▸ pyInt_le_succ _
    have hT2ub : (T2 : ℚ) ≤ 30.6001 * ((m' : ℚ) + 1) + 1 := hT2 ▸ pyInt_le_succ _
    have hNq : ((T1 + T2 + (2 - A0 + P4) - 1524 + d : ℤ) : ℚ)
        = (T1 : ℚ) + (T2 : ℚ) + (2 - (A0 : ℚ) + (P4 : ℚ)) - 1524 + (d : ℚ) := by
      push_cast
      ring
    have hNlb : (2299161 : ℚ) ≤ ((T1 + T2 + (2 - A0 + P4) - 1524 + d : ℤ) : ℚ) := by
      exact_mod_cast hcutN
    rw [hNq] at hNlb
    nlinarith [hT1ub, hA0lb, hP4ub, hT2ub, hylt, hm14', hd31']
  have hy0 : 0 ≤ y' := by omega
  -- exact integer-division values of the forward quantities
  have hA0e : A0 = y' / 100 := by
    rw [← hA0, show (100 : ℚ) = ((100 : ℕ) : ℚ) by norm_num]
    exact pyInt_intCast_div_natCast y' 100 hy0
  have hP4e : P4 = A0 / 4 := by
    rw [← hP4, show (4 : ℚ) = ((4 : ℕ) : ℚ) by norm_num]
    exact pyInt_intCast_div_natCast A0 4 (by omega)
  have hT1e : T1 = 1461 * (y' + 4716) / 4 := by
    rw [← hT1, show ((y' : ℚ) + 4716) = ((y' + 4716 : ℤ) : ℚ) by push_cast; ring]
    exact pyInt_mul_365_25 _ (by omega)
  have hT2e : T2 = 306001 * (m' + 1) / 10000 := by
    rw [← hT2, show ((m' : ℚ) + 1) = ((m' + 1 : ℤ) : ℚ) by push_cast; ring]
    exact pyInt_mul_30_6001 _ (by omega)
  obtain ⟨halpha, hCrec, hErec⟩ :=
    meeus_inverse_arith y' m' d hy1582 hm3 hm14 hd1 hd31 hd30 hd29 hleap
  -- replace the named quantities by their integer-division values everywhere
  subst hP4e
  subst hA0e
  subst hT1e
  subst hT2e
  -- the inverse chain
  have hJA : jdA (jdRaw y' m' (d : ℚ) h mi s)
      = 1461 * (y' + 4716) / 4 + 306001 * (m' + 1) / 10000 + d - 1524 := by
    rw [jdA_formula _ hcut, hZN]
    omega
  have hJB : jdB (jdRaw y' m' (d : ℚ) h mi s)
      = 1461 * (y' + 4716) / 4 + 306001 * (m' + 1) / 10000 + d := by
    rw [jdB, hJA]
    omega
  have hJC : jdC (jdRaw y' m' (d : ℚ) h mi s) = y' + 4716 := by
    rw [jdC_formula _ (by rw [hJB]; omega), hJB]
    omega
  have hJD : jdD (jdRaw y' m' (d : ℚ) h mi s) = 1461 * (y' + 4716) / 4 := by
    rw [jdD_formula _ (by rw [hJC]; omega), hJC]
  have hJE : jdE (jdRaw y' m' (d : ℚ) h mi s) = m' + 1 := by
    rw [jdE_formula _ (by rw [hJD, hJB]; omega), hJB, hJD]
    omega
  have hF : jdF (jdRaw y' m' (d : ℚ) h mi s)
      = ((h : ℚ) + (mi : ℚ) / 60 + s / 3600) / 24 := by
    rw [jdF, hZN, harg]
    ring
  have hDF : jdDayFrac (jdRaw y' m' (d : ℚ) h mi s)
      = (d : ℚ) + ((h : ℚ) + (mi : ℚ) / 60 + s / 3600) / 24 := by
    rw [jdDayFrac, hJB, hJD, hJE, hF, pyInt_mul_30_6001 (m' + 1) (by omega)]
    push_cast
    ring
  have hday : jdDay (jdRaw y' m' (d : ℚ) h mi s) = d := by
    rw [jdDay, hDF]
    apply pyInt_eq_of_nonneg (by omega) (by linarith) (by push_cast; linarith)
  have hJM : jdMonth (jdRaw y' m' (d : ℚ) h mi s)
      = (if 13 ≤ m' then m' - 12 else m') := by
    rw [jdMonth, hJE]
    by_cases h13 : 13 ≤ m'
    · rw [if_neg (by omega), if_pos h13]
      omega
    · rw [if_pos (by omega), if_neg h13]
      omega
  have hJY : jdYear (jdRaw y' m' (d : ℚ) h mi s)
      = (if 13 ≤ m' then y' + 1 else y') := by
    rw [jdYear, hJM, hJC]
    by_cases h13 : 13 ≤ m'
    · rw [if_pos h13, if_neg (by omega), if_pos h13]
      omega
    · rw [if_neg h13, if_pos (by omega), if_neg h13]
      omega
  have hts0 : jdTs0 (jdRaw y' m' (d : ℚ) h mi s)
      = 3600 * (h : ℚ) + 60 * (mi : ℚ) + s := by
    rw [jdTs0, hDF, hday]
    ring
  have hfloor3600 : ⌊(3600 * (h : ℚ) + 60 * (mi : ℚ) + s) / 3600⌋ = h := by
    rw [show (3600 * (h : ℚ) + 60 * (mi : ℚ) + s) / 3600
        = (h : ℚ) + (60 * (mi : ℚ) + s) / 3600 by ring, Int.floor_int_add,
      Int.floor_eq_zero_iff.mpr (Set.mem_Ico.mpr ⟨by positivity, ?_⟩)]
    · ring
    · rw [div_lt_one (by norm_num : (0 : ℚ) < 3600)]
      linarith
  have hhr : jdHour (jdRaw y' m' (d : ℚ) h mi s) = h := by
    rw [jdHour, hts0, hfloor3600]
  have hts1 : jdTs1 (jdRaw y' m' (d : ℚ) h mi s) = 60 * (mi : ℚ) + s := by
    rw [jdTs1, hts0, pyMod, hfloor3600]
    ring
  have hfloor60 : ⌊(60 * (mi : ℚ) + s) / 60⌋ = mi := by
    rw [show (60 * (mi : ℚ) + s) / 60 = (mi : ℚ) + s / 60 by ring, Int.floor_int_add,
      Int.floor_eq_zero_iff.mpr (Set.mem_Ico.mpr ⟨by positivity, ?_⟩)]
    · ring
    · rw [div_lt_one (by norm_num : (0 : ℚ) < 60)]
      linarith
  have hmin : jdMinute (jdRaw y' m' (d : ℚ) h mi s) = mi := by
    rw [jdMinute, hts1, hfloor60]
  have hsec : jdSecond (jdRaw y' m' (d : ℚ) h mi s) = pyRound4 s := by
    rw [jdSecond, hts1, pyMod, hfloor60]
    rw [show 60 * (mi : ℚ) + s - 60 * ((mi : ℤ) : ℚ) = s by push_cast; ring]
  rw [jd_to_gregorian, hJY, hJM, hday, hhr, hmin, hsec]

/-- Claim C1 (amended): for every valid calendar date (month 1..12, day
valid for the month, hour 0..23, minute 0..59, second in [0,60)) whose
Julian Day falls on the Gregorian branch of the inverse (`Z ≥ 2299161`,
i.e. on/after 15 Oct 1582; the counterexample shows the restriction is
necessary), `jd_to_gregorian (gregorian_to_jd d)` returns the same year,
month, day, hour and minute, and a second within `1e-4` of the input. -/
theorem roundtrip_after_gregorian_cutover (y m d h mi : ℤ) (s : ℚ)
    (hm1 : 1 ≤ m) (hm2 : m ≤ 12) (hd1 : 1 ≤ d) (hd2 : d ≤ daysInMonth y m)
    (hh0 : 0 ≤ h) (hh : h ≤ 23) (hmi0 : 0 ≤ mi) (hmi : mi ≤ 59)
    (hs0 : 0 ≤ s) (hs : s < 60)
    (hcut : 2299161 ≤ jdZ (gregorian_to_jd y m (d : ℚ) h mi s)) :
    (jd_to_gregorian (gregorian_to_jd y m (d : ℚ) h mi s)).year = y ∧
    (jd_to_gregorian (gregorian_to_jd y m (d : ℚ) h mi s)).month = m ∧
    (jd_to_gregorian (gregorian_to_jd y m (d : ℚ) h mi s)).day = d ∧
    (jd_to_gregorian (gregorian_to_jd y m (d : ℚ) h mi s)).hour = h ∧
    (jd_to_gregorian (gregorian_to_jd y m (d : ℚ) h mi s)).minute = mi ∧
    |(jd_to_gregorian (gregorian_to_jd y m (d : ℚ) h mi s)).second - s| ≤ 1 / 10000 := by
  by_cases hm2' : m ≤ 2
  · rw [show gregorian_to_jd y m (d : ℚ) h mi s = jdRaw (y - 1) (m + 12) (d : ℚ) h mi s
      from by rw [gregorian_to_jd, if_pos hm2']] at hcut ⊢
    have hdm : d ≤ monthLenAdj (y - 1) (m + 12) := by
      have h12 : m = 1 ∨ m = 2 := by omega
      rcases h12 with hm' | hm' <;> subst hm'
      · have e1 : monthLenAdj (y - 1) (1 + 12) = 31 := by norm_num [monthLenAdj]
        have e2 : daysInMonth y 1 = 31 := by norm_num [daysInMonth]
        omega
      · have e1 : monthLenAdj (y - 1) (2 + 12) = daysInMonth y 2 := by
          rw [monthLenAdj, daysInMonth, if_pos (by norm_num : (2 : ℤ) + 12 = 14),
            if_pos rfl, show y - 1 + 1 = y by ring]
        omega
    have hr := jdRaw_roundtrip (y - 1) (m + 12) d h mi s (by omega) (by omega)
      hd1 hdm hh0 hh hmi0 hmi hs0 hs hcut
    rw [hr]
    have h13 : 13 ≤ m + 12 := by omega
    refine ⟨?_, ?_, rfl, rfl, rfl, pyRound4_close s⟩
    · show (if 13 ≤ m + 12 then y - 1 + 1 else y - 1) = y
      rw [if_pos h13]
      ring
    · show (if 13 ≤ m + 12 then m + 12 - 12 else m + 12) = m
      rw [if_pos h13]
      ring
  · rw [show gregorian_to_jd y m (d : ℚ) h mi s = jdRaw y m (d : ℚ) h mi s
      from by rw [gregorian_to_jd, if_neg hm2']] at hcut ⊢
    have hdm : d ≤ monthLenAdj y m := by
      have e1 : monthLenAdj y m = daysInMonth y m := by
        rw [monthLenAdj, daysInMonth, if_neg (by omega : ¬ m = 14),
          if_neg (by omega : ¬ m = 2)]
      omega
    have hr := jdRaw_roundtrip y m d h mi s (by omega) (by omega)
      hd1 hdm hh0 hh hmi0 hmi hs0 hs hcut
    rw [hr]
    have h13 : ¬ 13 ≤ m := by omega
    refine ⟨?_, ?_, rfl, rfl, rfl, pyRound4_close s⟩
    · show (if 13 ≤ m then y + 1 else y) = y
      rw [if_neg h13]
    · show (if 13 ≤ m then m - 12 else m) = m
      rw [if_neg h13]

/-- Witness for C1 at 2024-05-15 12:30:30 UTC. -/
theorem roundtrip_after_gregorian_cutover_witness :
    2299161 ≤ jdZ (gregorian_to_jd 2024 5 ((15 : ℤ) : ℚ) 12 30 30) ∧
    ((jd_to_gregorian (gregorian_to_jd 2024 5 ((15 : ℤ) : ℚ) 12 30 30)).year = 2024 ∧
      (jd_to_gregorian (gregorian_to_jd 2024 5 ((15 : ℤ) : ℚ) 12 30 30)).month = 5 ∧
      (jd_to_gregorian (gregorian_to_jd 2024 5 ((15 : ℤ) : ℚ) 12 30 30)).day = 15 ∧
      (jd_to_gregorian (gregorian_to_jd 2024 5 ((15 : ℤ) : ℚ) 12 30 30)).hour = 12 ∧
      (jd_to_gregorian (gregorian_to_jd 2024 5 ((15 : ℤ) : ℚ) 12 30 30)).minute = 30 ∧
      |(jd_to_gregorian (gregorian_to_jd 2024 5 ((15 : ℤ) : ℚ) 12 30 30)).second - 30|
        ≤ 1 / 10000) := by
  have hcut : 2299161 ≤ jdZ (gregorian_to_jd 2024 5 ((15 : ℤ) : ℚ) 12 30 30) := by
    have hg : gregorian_to_jd 2024 5 ((15 : ℤ) : ℚ) 12 30 30 = 2460445.5 + 1501 / 2880 := by
      rw [gregorian_to_jd, if_neg (by norm_num : ¬ (5 : ℤ) ≤ 2)]
      rw [jdRaw_formula 2024 5 ((15 : ℤ) : ℚ) 12 30 30 (by norm_num) (by norm_num)]
      norm_num
    rw [jdZ, hg]
    rw [show pyInt ((2460445.5 : ℚ) + 1501 / 2880 + 0.5) = 2460446 from
      pyInt_eq_of_nonneg (by norm_num) (by norm_num) (by norm_num)]
    norm_num
  exact ⟨hcut, roundtrip_after_gregorian_cutover 2024 5 15 12 30 30
    (by norm_num) (by norm_num) (by norm_num) (by decide)
    (by norm_num) (by norm_num) (by norm_num) (by norm_num)
    (by norm_num) (by norm_num) hcut⟩

/-- Counterexample to claim C1 over all valid dates: the valid date
333-01-27 12:00:00 (pre-cutover) maps to JD 1842712.0, and the inverse —
which takes the Julian-calendar branch for `Z < 2299161` — returns day 26
instead of 27. -/
theorem roundtrip_fails_before_cutover :
    ((1 : ℤ) ≤ 1 ∧ (1 : ℤ) ≤ 12 ∧ (1 : ℤ) ≤ 27 ∧ (27 : ℤ) ≤ daysInMonth 333 1) ∧
    (jd_to_gregorian (gregorian_to_jd 333 1 27 12 0 0)).day = 26 ∧
    (jd_to_gregorian (gregorian_to_jd 333 1 27 12 0 0)).day ≠ 27 := by
  have hZ : jdZ (1842712 : ℚ) = 1842712 :=
    pyInt_eq_of_nonneg (by norm_num) (by norm_num) (by norm_num)
  have hF : jdF (1842712 : ℚ) = 0.5 := by
    rw [jdF, hZ]
    norm_num
  have hA : jdA (1842712 : ℚ) = 1842712 := by
    rw [jdA, if_pos (by rw [hZ]; norm_num), hZ]
  have hB : jdB (1842712 : ℚ) = 1844236 := by
    rw [jdB, hA]
    norm_num
  have hC : jdC (1842712 : ℚ) = 5048 := by
    rw [jdC, hB]
    exact pyInt_eq_of_nonneg (by norm_num) (by norm_num) (by norm_num)
  have hD : jdD (1842712 : ℚ) = 1843782 := by
    rw [jdD, hC]
    exact pyInt_eq_of_nonneg (by norm_num) (by norm_num) (by norm_num)
  have hE : jdE (1842712 : ℚ) = 14 := by
    rw [jdE, hB, hD]
    exact pyInt_eq_of_nonneg (by norm_num) (by norm_num) (by norm_num)
  have hDF : jdDayFrac (1842712 : ℚ) = 26.5 := by
    rw [jdDayFrac, hB, hD, hE, hF]
    rw [show pyInt ((30.6001 : ℚ) * ((14 : ℤ) : ℚ)) = 428 from
      pyInt_eq_of_nonneg (by norm_num) (by norm_num) (by norm_num)]
    norm_num
  have hday : (jd_to_gregorian (1842712 : ℚ)).day = 26 := by
    show jdDay (1842712 : ℚ) = 26
    rw [jdDay, hDF]
    exact pyInt_eq_of_nonneg (by norm_num) (by norm_num) (by norm_num)
  refine ⟨⟨by norm_num, by norm_num, by norm_num, by decide⟩, ?_, ?_⟩
  · rw [gregorian_to_jd_333_eval]
    exact hday
  · rw [gregorian_to_jd_333_eval, hday]
    norm_num
